import Mathlib

/-!
Verification of the client-side state logic of the LazorKit playground:
the activity Log Ledger, the Transaction History Ledger, the persistent
store adapter, the per-action re-entrancy guards and the user-triggered
handlers, embedded from `src/src/config/lazorkit.ts` (WalletDemo).
-/

namespace LazorKit

/-- The `type` field of a `LogEntry` (`'info' | 'success' | 'error' | 'pending'`). -/
inductive LogKind where
  | info
  | success
  | error
  | pending
deriving DecidableEq

/-- `LogEntry` from lazorkit.ts (lines 184-190): `id` (a fresh UUID, modelled as a
number), `timestamp` (a `Date`, modelled as a number), `type`, `message`,
optional `details`. -/
structure LogEntry where
  id : Nat
  timestamp : Nat
  kind : LogKind
  message : String
  details : Option String
deriving DecidableEq

/-- `log.type === 'pending'` as a Boolean predicate on entries. -/
def isPending (l : LogEntry) : Bool :=
  match l.kind with
  | .pending => true
  | _ => false

/-- The Log Ledger state: the in-memory `logs` React state plus the durable
value persisted under `STORAGE_KEYS.LOGS` (`none` = key absent/removed). -/
structure LedgerState where
  logs : List LogEntry
  stored : Option (List LogEntry)
deriving DecidableEq

/-- Constructs the `logEntry` object built at the top of `addLog`. -/
def mkLogEntry (idv t : Nat) (type : LogKind) (message : String)
    (details : Option String) : LogEntry :=
  { id := idv, timestamp := t, kind := type, message := message, details := details }

/-- `type === 'success' || type === 'error' || type === 'info'`
(the `shouldFilter` flag inside `addLog`). -/
def shouldFilterKind (type : LogKind) : Bool :=
  match type with
  | .success => true
  | .error => true
  | .info => true
  | .pending => false

/-- The `baseLogs` computation inside `addLog` (lazorkit.ts lines 360-369):
when the new entry settles and pending entries exist, drop them; otherwise
keep `prev` as is. -/
def addLogBase (type : LogKind) (prev : List LogEntry) : List LogEntry :=
  if shouldFilterKind type then
    if 0 < (prev.filter isPending).length then
      prev.filter (fun l => !isPending l)
    else prev
  else prev

/-- `addLog` (lazorkit.ts lines 345-380). Builds the entry, filters pending
entries on a settling append, prepends, truncates to 30, and persists the
result minus any pending entries. Returns the new state together with the
value written to durable storage this call (always a write). -/
def addLog (type : LogKind) (message : String) (details : Option String)
    (idv t : Nat) (s : LedgerState) : LedgerState × Option (List LogEntry) :=
  let logEntry := mkLogEntry idv t type message details
  let newLogs := (logEntry :: addLogBase type s.logs).take 30
  let logsToSave := newLogs.filter (fun l => !isPending l)
  ({ logs := newLogs, stored := some logsToSave }, some logsToSave)

/-- `clearPendingLogs` (lazorkit.ts lines 330-343): removes all pending
entries in memory; persists the filtered list only when something was
removed. Returns the state and the value written (if any). -/
def clearPendingLogs (s : LedgerState) : LedgerState × Option (List LogEntry) :=
  let pendingCount := (s.logs.filter isPending).length
  if pendingCount = 0 then (s, none)
  else
    let filtered := s.logs.filter (fun l => !isPending l)
    ({ logs := filtered, stored := some filtered }, some filtered)

/-- The Activity Log's Clear button (lazorkit.ts line 998):
`onClick = setLogs([])`. Only the in-memory list is emptied; durable
storage is not touched and nothing is written. -/
def clearLogsButton (s : LedgerState) : LedgerState × Option (List LogEntry) :=
  ({ s with logs := [] }, none)

/-- The log-ledger part of `handleForceReset` (lazorkit.ts lines 391-445):
`localStorage.removeItem(STORAGE_KEYS.LOGS)` followed by `setLogs([])`.
Removal of the key is not a write of a value under the key. -/
def forceResetLogs (_s : LedgerState) : LedgerState × Option (List LogEntry) :=
  ({ logs := [], stored := none }, none)

/-- Initial load (lazorkit.ts lines 254-262): read the persisted list and
drop any pending entries before they reach memory. -/
def initLogs (stored : Option (List LogEntry)) : LedgerState :=
  { logs := (stored.getD []).filter (fun l => !isPending l), stored := stored }

/-- The operations of the Log Ledger. -/
inductive LogOp where
  | add (type : LogKind) (message : String) (details : Option String) (idv t : Nat)
  | clearPending
  | clearButton
  | forceReset

/-- Applies one Log Ledger operation, returning the new state and the value
written to durable storage by that operation (if it wrote one). -/
def applyLogOp : LogOp → LedgerState → LedgerState × Option (List LogEntry)
  | .add type message details idv t, s => addLog type message details idv t s
  | .clearPending, s => clearPendingLogs s
  | .clearButton, s => clearLogsButton s
  | .forceReset, s => forceResetLogs s

/-- Runs a sequence of Log Ledger operations, collecting every value
written to durable storage along the run. -/
def runLogOps : List LogOp → LedgerState → LedgerState × List (List LogEntry)
  | [], s => (s, [])
  | op :: ops, s =>
    let r := applyLogOp op s
    let rest := runLogOps ops r.1
    (rest.1, r.2.toList ++ rest.2)

theorem mem_filter_not_pending {l : LogEntry} {ls : List LogEntry}
    (h : l ∈ ls.filter (fun x => !isPending x)) : isPending l = false := by
  have := (List.mem_filter.mp h).2
  simpa using this

theorem applyLogOp_write_no_pending (op : LogOp) (s : LedgerState)
    (v : List LogEntry) (hv : (applyLogOp op s).2 = some v) :
    ∀ e ∈ v, isPending e = false := by
  cases op with
  | add type message details idv t =>
    simp only [applyLogOp, addLog] at hv
    cases hv
    intro e he
    exact mem_filter_not_pending he
  | clearPending =>
    simp only [applyLogOp, clearPendingLogs] at hv
    split at hv
    · cases hv
    · cases hv
      intro e he
      exact mem_filter_not_pending he
  | clearButton => simp [applyLogOp, clearLogsButton] at hv
  | forceReset => simp [applyLogOp, forceResetLogs] at hv

/-- C1: for every sequence of Log Ledger operations (appends of any mix of
kinds, clear-pending, the Clear button, force reset) from any starting
state, every value written to durable storage under the logs key contains
no entry of kind pending; only info, success and error entries are ever
persisted. -/
theorem persisted_logs_never_pending (ops : List LogOp) (s : LedgerState)
    (v : List LogEntry) (hv : v ∈ (runLogOps ops s).2) :
    ∀ e ∈ v, isPending e = false := by
  induction ops generalizing s with
  | nil => simp [runLogOps] at hv
  | cons op ops ih =>
    simp only [runLogOps, List.mem_append] at hv
    rcases hv with hv | hv
    · rcases h : (applyLogOp op s).2 with _ | w
      · rw [h] at hv; simp [Option.toList] at hv
      · rw [h] at hv
        simp [Option.toList] at hv
        subst hv
        exact applyLogOp_write_no_pending op s v h
    · exact ih _ hv

/-- C1 witness: in the concrete run (a pending append then a success
append) the second write is the singleton success entry, and that entry is
not pending. -/
theorem persisted_logs_never_pending_witness :
    isPending (mkLogEntry 1 1 LogKind.success "ok" none) = false :=
  persisted_logs_never_pending
    [LogOp.add LogKind.pending "wait" none 0 0,
     LogOp.add LogKind.success "ok" none 1 1]
    { logs := [], stored := none } [mkLogEntry 1 1 LogKind.success "ok" none]
    (by decide) (mkLogEntry 1 1 LogKind.success "ok" none) (by decide)

theorem isPending_mk_of_shouldFilter {type : LogKind}
    (h : type = LogKind.success ∨ type = LogKind.error ∨ type = LogKind.info)
    (idv t : Nat) (message : String) (details : Option String) :
    isPending (mkLogEntry idv t type message details) = false := by
  rcases h with h | h | h <;> subst h <;> rfl

theorem filter_pending_pos {ls : List LogEntry}
    (hp : ∃ e ∈ ls, isPending e = true) : 0 < (ls.filter isPending).length := by
  obtain ⟨e, he, hpe⟩ := hp
  exact List.length_pos.mpr (List.ne_nil_of_mem (List.mem_filter.mpr ⟨he, hpe⟩))

/-- C2: an append of kind success, error or info on a state holding at least
one pending entry removes every pending entry from the in-memory sequence
before prepending the new entry, so immediately after the settling append
the in-memory sequence is the new entry in front of the pending-free
remainder and contains no pending entry. -/
theorem settling_append_clears_pending (type : LogKind) (message : String)
    (details : Option String) (idv t : Nat) (s : LedgerState)
    (hk : type = LogKind.success ∨ type = LogKind.error ∨ type = LogKind.info)
    (hp : ∃ e ∈ s.logs, isPending e = true) :
    ((addLog type message details idv t s).1.logs
      = mkLogEntry idv t type message details
          :: (s.logs.filter (fun l => !isPending l)).take 29)
    ∧ ∀ e ∈ (addLog type message details idv t s).1.logs, isPending e = false := by
  have hsf : shouldFilterKind type = true := by
    rcases hk with h | h | h <;> subst h <;> rfl
  have hbase : addLogBase type s.logs = s.logs.filter (fun l => !isPending l) := by
    simp [addLogBase, hsf, filter_pending_pos hp]
  have hlogs : (addLog type message details idv t s).1.logs
      = mkLogEntry idv t type message details
          :: (s.logs.filter (fun l => !isPending l)).take 29 := by
    show (mkLogEntry idv t type message details :: addLogBase type s.logs).take 30
        = _
    rw [hbase, show (30 : Nat) = 29 + 1 from rfl, List.take_succ_cons]
  refine ⟨hlogs, ?_⟩
  intro e he
  rw [hlogs] at he
  rcases List.mem_cons.mp he with h | h
  · subst h; exact isPending_mk_of_shouldFilter hk idv t message details
  · exact mem_filter_not_pending (List.take_subset _ _ h)

/-- C2 witness: appending a success entry to a state that holds exactly one
pending entry leaves the success entry alone in memory, and the remaining
entry is not pending. -/
theorem settling_append_clears_pending_witness :
    (addLog LogKind.success "ok" none 1 1
        { logs := [mkLogEntry 0 0 LogKind.pending "wait" none], stored := none }).1.logs
      = [mkLogEntry 1 1 LogKind.success "ok" none]
    ∧ isPending (mkLogEntry 1 1 LogKind.success "ok" none) = false := by
  have h := settling_append_clears_pending LogKind.success "ok" none 1 1
    { logs := [mkLogEntry 0 0 LogKind.pending "wait" none], stored := none }
    (Or.inl rfl) ⟨mkLogEntry 0 0 LogKind.pending "wait" none, by decide, by decide⟩
  refine ⟨by rw [h.1]; rfl, ?_⟩
  exact h.2 (mkLogEntry 1 1 LogKind.success "ok" none) (by rw [h.1]; exact List.mem_singleton.mpr rfl)

/-- One call of `addLog` as issued by the handlers: the entry data together
with the fresh id and the creation timestamp. -/
structure AddCall where
  type : LogKind
  message : String
  details : Option String
  idv : Nat
  t : Nat

/-- The state part of one `addLog` call. -/
def addLogCall (c : AddCall) (s : LedgerState) : LedgerState :=
  (addLog c.type c.message c.details c.idv c.t s).1

/-- A sequence of `addLog` calls, oldest first. -/
def applyAddCalls : List AddCall → LedgerState → LedgerState
  | [], s => s
  | c :: cs, s => applyAddCalls cs (addLogCall c s)

/-- Newest-first order: along the list, timestamps never increase. -/
def NewestFirst (ls : List LogEntry) : Prop :=
  ls.Pairwise (fun a b => b.timestamp ≤ a.timestamp)

/-- All timestamps in the list are at most `b`. -/
def TimesLe (b : Nat) (ls : List LogEntry) : Prop :=
  ∀ e ∈ ls, e.timestamp ≤ b

/-- The calls carry nondecreasing creation timestamps, starting no earlier
than `b` (the clock only moves forward). -/
def CallsMono : Nat → List AddCall → Prop
  | _, [] => True
  | b, c :: cs => b ≤ c.t ∧ CallsMono c.t cs

/-- The timestamp of the last call (or `b` if there is none). -/
def lastTime : Nat → List AddCall → Nat
  | b, [] => b
  | _, c :: cs => lastTime c.t cs

theorem addLogBase_sublist (type : LogKind) (l : List LogEntry) :
    (addLogBase type l).Sublist l := by
  unfold addLogBase
  split
  · split
    · exact List.filter_sublist l
    · exact List.Sublist.refl l
  · exact List.Sublist.refl l

theorem addLogCall_logs (c : AddCall) (s : LedgerState) :
    (addLogCall c s).logs
      = (mkLogEntry c.idv c.t c.type c.message c.details
          :: addLogBase c.type s.logs).take 30 := rfl

theorem addLogCall_invariant (c : AddCall) (s : LedgerState) (b : Nat)
    (hnf : NewestFirst s.logs) (ht : TimesLe b s.logs) (hb : b ≤ c.t) :
    (addLogCall c s).logs.length ≤ 30
    ∧ NewestFirst (addLogCall c s).logs
    ∧ TimesLe c.t (addLogCall c s).logs := by
  have hsub := addLogBase_sublist c.type s.logs
  have hnfb : NewestFirst (addLogBase c.type s.logs) := hnf.sublist hsub
  have htb : TimesLe c.t (addLogBase c.type s.logs) :=
    fun e he => le_trans (ht e (hsub.subset he)) hb
  have hcons : NewestFirst (mkLogEntry c.idv c.t c.type c.message c.details
      :: addLogBase c.type s.logs) :=
    List.pairwise_cons.mpr ⟨fun e he => htb e he, hnfb⟩
  have htcons : TimesLe c.t (mkLogEntry c.idv c.t c.type c.message c.details
      :: addLogBase c.type s.logs) := by
    intro e he
    rcases List.mem_cons.mp he with h | h
    · subst h; exact le_refl _
    · exact htb e h
  refine ⟨?_, ?_, ?_⟩
  · rw [addLogCall_logs]; exact List.length_take_le _ _
  · rw [addLogCall_logs]
    exact hcons.sublist (List.take_sublist _ _)
  · rw [addLogCall_logs]
    exact fun e he => htcons e (List.take_subset _ _ he)

theorem applyAddCalls_invariant (calls : List AddCall) :
    ∀ (b : Nat) (s : LedgerState), s.logs.length ≤ 30 → NewestFirst s.logs →
      TimesLe b s.logs → CallsMono b calls →
      (applyAddCalls calls s).logs.length ≤ 30
      ∧ NewestFirst (applyAddCalls calls s).logs
      ∧ TimesLe (lastTime b calls) (applyAddCalls calls s).logs := by
  induction calls with
  | nil => exact fun b s h1 h2 h3 _ => ⟨h1, h2, h3⟩
  | cons c cs ih =>
    intro b s h1 h2 h3 hm
    obtain ⟨hb, hm'⟩ := hm
    obtain ⟨l1, l2, l3⟩ := addLogCall_invariant c s b h2 h3 hb
    exact ih c.t (addLogCall c s) l1 l2 l3 hm'

/-- C3: after every sequence of `addLog` calls with forward-moving
timestamps, starting from any ledger state within capacity that is ordered
newest-first, the in-memory log holds at most 30 entries and stays ordered
newest-first; moreover each single append prepends its newly created entry
(it becomes the head) and keeps, after it, only a sublist of the previous
entries (the oldest beyond the capacity are evicted). -/
theorem log_ledger_bounded_newest_first (calls : List AddCall)
    (s : LedgerState) (b : Nat) (hlen : s.logs.length ≤ 30)
    (hnf : NewestFirst s.logs) (ht : TimesLe b s.logs)
    (hm : CallsMono b calls) :
    ((applyAddCalls calls s).logs.length ≤ 30
      ∧ NewestFirst (applyAddCalls calls s).logs)
    ∧ ∀ (c : AddCall) (s' : LedgerState),
        (addLogCall c s').logs.head?
            = some (mkLogEntry c.idv c.t c.type c.message c.details)
        ∧ (addLogCall c s').logs.tail.Sublist s'.logs := by
  obtain ⟨h1, h2, _⟩ := applyAddCalls_invariant calls b s hlen hnf ht hm
  refine ⟨⟨h1, h2⟩, ?_⟩
  intro c s'
  have hlog : (addLogCall c s').logs
      = mkLogEntry c.idv c.t c.type c.message c.details
          :: (addLogBase c.type s'.logs).take 29 := by
    rw [addLogCall_logs, show (30 : Nat) = 29 + 1 from rfl, List.take_succ_cons]
  constructor
  · rw [hlog]; rfl
  · rw [hlog]
    exact (List.take_sublist _ _).trans (addLogBase_sublist c.type s'.logs)

/-- A concrete empty ledger. -/
def exLedgerEmpty : LedgerState := { logs := [], stored := none }

/-- A concrete two-call append sequence: pending at time 1, then success
at time 2. -/
def exAddCalls : List AddCall :=
  [{ type := LogKind.pending, message := "wait", details := none, idv := 0, t := 1 },
   { type := LogKind.success, message := "ok", details := none, idv := 1, t := 2 }]

/-- A concrete single append call. -/
def exAddCall : AddCall :=
  { type := LogKind.info, message := "third", details := none, idv := 2, t := 3 }

/-- C3 witness: the concrete two-call sequence from the empty ledger
satisfies the bound and the order, and a concrete single append on the
empty ledger prepends its entry. -/
theorem log_ledger_bounded_newest_first_witness :
    ((applyAddCalls exAddCalls exLedgerEmpty).logs.length ≤ 30
      ∧ NewestFirst (applyAddCalls exAddCalls exLedgerEmpty).logs)
    ∧ ((addLogCall exAddCall exLedgerEmpty).logs.head?
          = some (mkLogEntry exAddCall.idv exAddCall.t exAddCall.type
              exAddCall.message exAddCall.details)
        ∧ (addLogCall exAddCall exLedgerEmpty).logs.tail.Sublist exLedgerEmpty.logs) := by
  have h := log_ledger_bounded_newest_first exAddCalls exLedgerEmpty 0 (by decide)
    (by simp [NewestFirst, exLedgerEmpty]) (by simp [TimesLe, exLedgerEmpty])
    (show (0 : Nat) ≤ 1 ∧ (1 : Nat) ≤ 2 ∧ True from ⟨by omega, by omega, trivial⟩)
  exact ⟨h.1, h.2 exAddCall exLedgerEmpty⟩

/-- C4 counterexample: starting from a ledger whose info entry is both in
memory and persisted, the Activity Log's Clear button (`setLogs([])`,
lazorkit.ts line 998) leaves the persisted value present: it is not
removed from durable storage, refuting the claim. -/
theorem clear_button_keeps_storage_counterexample :
    ((clearLogsButton
        { logs := [mkLogEntry 0 0 LogKind.info "hello" none],
          stored := some [mkLogEntry 0 0 LogKind.info "hello" none] }).1.stored
      = some [mkLogEntry 0 0 LogKind.info "hello" none])
    ∧ some [mkLogEntry 0 0 LogKind.info "hello" none]
        ≠ (none : Option (List LogEntry)) :=
  ⟨rfl, by simp⟩

/-- C4 amended: the Activity Log's Clear action empties the in-memory log
sequence but does not touch durable storage: the persisted log value is
left exactly as it was (and no write is performed). -/
theorem clear_button_amended (s : LedgerState) :
    (clearLogsButton s).1.logs = []
    ∧ (clearLogsButton s).1.stored = s.stored
    ∧ (clearLogsButton s).2 = none :=
  ⟨rfl, rfl, rfl⟩

/-- The synchronous prefix of `handleConnect` (lazorkit.ts lines 475-479):
`setLogs([])` followed by `addLog('pending', 'Opening passkey
authentication...')`, before the first await. -/
def handleConnectBeginLedger (idv t : Nat) (s : LedgerState) : LedgerState :=
  (addLog LogKind.pending "Opening passkey authentication..." none idv t
    { s with logs := [] }).1

/-- C10: a connect attempt first replaces the entire in-memory log sequence
with the empty sequence and then appends its own pending entry, so for
every prior ledger state the in-memory log right after the start of a
connect attempt is exactly the one fresh pending entry: all earlier
entries, of every kind, are discarded from memory. -/
theorem connect_start_discards_all_logs (idv t : Nat) (s : LedgerState) :
    (handleConnectBeginLedger idv t s).logs
      = [mkLogEntry idv t LogKind.pending "Opening passkey authentication..." none] :=
  rfl

/-- `type` values of a `StoredTransaction`. -/
inductive TxKind where
  | transfer
  | subscription
  | airdrop
deriving DecidableEq

/-- `status` values of a `StoredTransaction`. -/
inductive TxStatus where
  | success
  | failed
deriving DecidableEq

/-- `StoredTransaction` from lazorkit.ts (lines 243-249). The ISO timestamp
string is modelled as a number so that creation order is visible. -/
structure StoredTransaction where
  signature : String
  type : TxKind
  timestamp : Nat
  status : TxStatus
  details : Option String
deriving DecidableEq

/-- The Transaction History Ledger state: the in-memory `transactions`
React state plus the value persisted under `STORAGE_KEYS.TRANSACTIONS`
(`none` = key absent/removed). -/
structure TxState where
  transactions : List StoredTransaction
  stored : Option (List StoredTransaction)
deriving DecidableEq

/-- `addTransaction` (lazorkit.ts lines 382-388): prepend the record with
the current timestamp, truncate to 50, persist the truncated sequence. -/
def addTransaction (signature : String) (type : TxKind) (status : TxStatus)
    (details : Option String) (t : Nat) (s : TxState) : TxState :=
  let newTx := ({ signature := signature, type := type, timestamp := t,
                  status := status, details := details } :: s.transactions).take 50
  { transactions := newTx, stored := some newTx }

/-- The Clear History button (lazorkit.ts lines 1045-1048):
`setTransactions([])` and `localStorage.removeItem(STORAGE_KEYS.TRANSACTIONS)`. -/
def clearHistoryButton (_s : TxState) : TxState :=
  { transactions := [], stored := none }

/-- One `addTransaction` call: record data plus the creation timestamp. -/
structure RecordCall where
  signature : String
  type : TxKind
  status : TxStatus
  details : Option String
  t : Nat

/-- The record built by one `addTransaction` call. -/
def mkRecord (c : RecordCall) : StoredTransaction :=
  { signature := c.signature, type := c.type, timestamp := c.t,
    status := c.status, details := c.details }

/-- One `addTransaction` call on the state. -/
def recordCall (c : RecordCall) (s : TxState) : TxState :=
  addTransaction c.signature c.type c.status c.details c.t s

/-- A sequence of `addTransaction` calls, oldest first. -/
def applyRecordCalls : List RecordCall → TxState → TxState
  | [], s => s
  | c :: cs, s => applyRecordCalls cs (recordCall c s)

/-- Newest-first order for transaction records. -/
def TxNewestFirst (ls : List StoredTransaction) : Prop :=
  ls.Pairwise (fun a b => b.timestamp ≤ a.timestamp)

/-- All record timestamps are at most `b`. -/
def TxTimesLe (b : Nat) (ls : List StoredTransaction) : Prop :=
  ∀ e ∈ ls, e.timestamp ≤ b

/-- The record calls carry nondecreasing timestamps starting from `b`. -/
def RecCallsMono : Nat → List RecordCall → Prop
  | _, [] => True
  | b, c :: cs => b ≤ c.t ∧ RecCallsMono c.t cs

/-- The timestamp of the last record call (or `b` if there is none). -/
def recLastTime : Nat → List RecordCall → Nat
  | b, [] => b
  | _, c :: cs => recLastTime c.t cs

theorem recordCall_transactions (c : RecordCall) (s : TxState) :
    (recordCall c s).transactions = (mkRecord c :: s.transactions).take 50 := rfl

theorem recordCall_invariant (c : RecordCall) (s : TxState) (b : Nat)
    (hnf : TxNewestFirst s.transactions) (ht : TxTimesLe b s.transactions)
    (hb : b ≤ c.t) :
    (recordCall c s).transactions.length ≤ 50
    ∧ TxNewestFirst (recordCall c s).transactions
    ∧ TxTimesLe c.t (recordCall c s).transactions := by
  have htb : TxTimesLe c.t s.transactions :=
    fun e he => le_trans (ht e he) hb
  have hcons : TxNewestFirst (mkRecord c :: s.transactions) :=
    List.pairwise_cons.mpr ⟨fun e he => htb e he, hnf⟩
  have htcons : TxTimesLe c.t (mkRecord c :: s.transactions) := by
    intro e he
    rcases List.mem_cons.mp he with h | h
    · subst h; exact le_refl _
    · exact htb e h
  refine ⟨?_, ?_, ?_⟩
  · rw [recordCall_transactions]; exact List.length_take_le _ _
  · rw [recordCall_transactions]
    exact hcons.sublist (List.take_sublist _ _)
  · rw [recordCall_transactions]
    exact fun e he => htcons e (List.take_subset _ _ he)

theorem applyRecordCalls_invariant (calls : List RecordCall) :
    ∀ (b : Nat) (s : TxState), s.transactions.length ≤ 50 →
      TxNewestFirst s.transactions → TxTimesLe b s.transactions →
      RecCallsMono b calls →
      (applyRecordCalls calls s).transactions.length ≤ 50
      ∧ TxNewestFirst (applyRecordCalls calls s).transactions
      ∧ TxTimesLe (recLastTime b calls) (applyRecordCalls calls s).transactions := by
  induction calls with
  | nil => exact fun b s h1 h2 h3 _ => ⟨h1, h2, h3⟩
  | cons c cs ih =>
    intro b s h1 h2 h3 hm
    obtain ⟨hb, hm'⟩ := hm
    obtain ⟨l1, l2, l3⟩ := recordCall_invariant c s b h2 h3 hb
    exact ih c.t (recordCall c s) l1 l2 l3 hm'

/-- C7: after every sequence of `addTransaction` calls with forward-moving
timestamps, starting from any history state within capacity that is
ordered newest-first, the Transaction History Ledger holds at most 50
records and stays ordered newest-first; each record call prepends the new
record (it becomes the head), keeps only a sublist of the previous records
after it, and persists exactly the truncated in-memory sequence; and the
Clear History action leaves the in-memory history empty and the persisted
value removed. -/
theorem tx_history_bounded_and_clear (calls : List RecordCall)
    (s : TxState) (b : Nat) (hlen : s.transactions.length ≤ 50)
    (hnf : TxNewestFirst s.transactions) (ht : TxTimesLe b s.transactions)
    (hm : RecCallsMono b calls) :
    ((applyRecordCalls calls s).transactions.length ≤ 50
      ∧ TxNewestFirst (applyRecordCalls calls s).transactions)
    ∧ (∀ (c : RecordCall) (s' : TxState),
        (recordCall c s').transactions.head? = some (mkRecord c)
        ∧ (recordCall c s').transactions.tail.Sublist s'.transactions
        ∧ (recordCall c s').stored = some (recordCall c s').transactions)
    ∧ ∀ s' : TxState,
        (clearHistoryButton s').transactions = []
        ∧ (clearHistoryButton s').stored = none := by
  obtain ⟨h1, h2, _⟩ := applyRecordCalls_invariant calls b s hlen hnf ht hm
  refine ⟨⟨h1, h2⟩, ?_, fun s' => ⟨rfl, rfl⟩⟩
  intro c s'
  have hlog : (recordCall c s').transactions
      = mkRecord c :: s'.transactions.take 49 := by
    rw [recordCall_transactions, show (50 : Nat) = 49 + 1 from rfl,
      List.take_succ_cons]
  exact ⟨by rw [hlog]; rfl, by rw [hlog]; exact List.take_sublist _ _, rfl⟩

/-- A concrete empty history. -/
def exTxEmpty : TxState := { transactions := [], stored := none }

/-- The spec scenario: a failed record with empty signature at time 1,
then a successful one at time 2. -/
def exRecordCalls : List RecordCall :=
  [{ signature := "", type := TxKind.transfer, status := TxStatus.failed,
     details := some "insufficient funds", t := 1 },
   { signature := "5xYz", type := TxKind.transfer, status := TxStatus.success,
     details := some "ok", t := 2 }]

/-- A concrete single record call. -/
def exRecordCall : RecordCall :=
  { signature := "abc", type := TxKind.airdrop, status := TxStatus.success,
    details := none, t := 3 }

/-- C7 witness: the spec scenario from the empty history satisfies the
bound and the order; a concrete record call prepends and persists; the
Clear History action on a concrete state empties memory and removes the
persisted value. -/
theorem tx_history_bounded_and_clear_witness :
    ((applyRecordCalls exRecordCalls exTxEmpty).transactions.length ≤ 50
      ∧ TxNewestFirst (applyRecordCalls exRecordCalls exTxEmpty).transactions)
    ∧ ((recordCall exRecordCall exTxEmpty).transactions.head? = some (mkRecord exRecordCall)
        ∧ (recordCall exRecordCall exTxEmpty).transactions.tail.Sublist exTxEmpty.transactions
        ∧ (recordCall exRecordCall exTxEmpty).stored
            = some (recordCall exRecordCall exTxEmpty).transactions)
    ∧ ((clearHistoryButton exTxEmpty).transactions = []
        ∧ (clearHistoryButton exTxEmpty).stored = none) := by
  have h := tx_history_bounded_and_clear exRecordCalls exTxEmpty 0 (by decide)
    (by simp [TxNewestFirst, exTxEmpty]) (by simp [TxTimesLe, exTxEmpty])
    (show (0 : Nat) ≤ 1 ∧ (1 : Nat) ≤ 2 ∧ True from ⟨by omega, by omega, trivial⟩)
  exact ⟨h.1, h.2.1 exRecordCall exTxEmpty, h.2.2 exTxEmpty⟩

/-- The persistent store boundary: `avail` models being in a browser
context (`typeof window !== 'undefined'`); `items` maps keys to cells,
where a cell `some a` is a stored string that deserializes to `a` and
`none` is a stored string on which `JSON.parse` throws; `writeFails`
models `localStorage.setItem` throwing (quota exceeded). -/
structure RawStore (α : Type) where
  avail : Bool
  items : List (String × Option α)
  writeFails : Bool

/-- `loadFromStorage` (lazorkit.ts lines 224-232): default when no browser
context, when the key is absent, or when deserialization fails (the
try/catch is embedded as the total match on the parse result). -/
def loadFromStorage {α : Type} (store : RawStore α) (key : String)
    (defaultValue : α) : α :=
  if store.avail then
    match store.items.lookup key with
    | none => defaultValue
    | some cell =>
      match cell with
      | some v => v
      | none => defaultValue
  else defaultValue

/-- The underlying `localStorage.setItem`, which can throw. -/
def setItemRaw {α : Type} (store : RawStore α) (key : String) (value : α) :
    Except String (RawStore α) :=
  if store.writeFails then Except.error "QuotaExceededError"
  else Except.ok { store with items := (key, some value) :: store.items }

/-- `saveToStorage` (lazorkit.ts lines 234-241): no-op when no browser
context; the throwing write is caught (the catch only logs to console), so
the function always returns normally with the store unchanged on
failure. -/
def saveToStorage {α : Type} (store : RawStore α) (key : String)
    (value : α) : RawStore α :=
  if store.avail then
    match setItemRaw store key value with
    | .ok s2 => s2
    | .error _ => store
  else store

/-- C8: `loadFromStorage` is total (never raises) and returns the stored
deserialized value when one is present, and the default when the store is
unavailable, the key is absent, or deserialization fails; and when the
underlying write throws, `saveToStorage` returns normally with the store
unchanged, so a subsequent load of a key that had no prior stored value
returns the caller-supplied default. -/
theorem storage_load_save_fallback {α : Type} (store : RawStore α)
    (key : String) (d v : α) :
    (store.avail = false → loadFromStorage store key d = d)
    ∧ (store.items.lookup key = none → loadFromStorage store key d = d)
    ∧ (store.items.lookup key = some none → loadFromStorage store key d = d)
    ∧ (∀ a, store.avail = true → store.items.lookup key = some (some a) →
        loadFromStorage store key d = a)
    ∧ (store.writeFails = true → saveToStorage store key v = store)
    ∧ (store.writeFails = true → store.items.lookup key = none →
        loadFromStorage (saveToStorage store key v) key d = d) := by
  have hsave : store.writeFails = true → saveToStorage store key v = store := by
    intro h
    unfold saveToStorage setItemRaw
    rw [h]
    split <;> rfl
  refine ⟨?_, ?_, ?_, ?_, hsave, ?_⟩
  · intro h; simp [loadFromStorage, h]
  · intro h; unfold loadFromStorage; rw [h]; split <;> rfl
  · intro h; unfold loadFromStorage; rw [h]; split <;> rfl
  · intro a ha h; simp [loadFromStorage, ha, h]
  · intro hw habs
    rw [hsave hw]
    unfold loadFromStorage; rw [habs]; split <;> rfl

/-- An unavailable store (server-side render context). -/
def exStoreUnavailable : RawStore Nat :=
  { avail := false, items := [], writeFails := false }

/-- An available, empty store whose writes throw (quota exceeded). -/
def exStoreWriteFails : RawStore Nat :=
  { avail := true, items := [], writeFails := true }

/-- C8 witness: a load from an unavailable store yields the default; a
throwing write leaves the store unchanged and a subsequent load of that
key yields the caller-supplied default. -/
theorem storage_load_save_fallback_witness :
    loadFromStorage exStoreUnavailable "lazorkit_logs" 7 = 7
    ∧ saveToStorage exStoreWriteFails "lazorkit_logs" 5 = exStoreWriteFails
    ∧ loadFromStorage (saveToStorage exStoreWriteFails "lazorkit_logs" 5)
        "lazorkit_logs" 9 = 9 :=
  ⟨(storage_load_save_fallback exStoreUnavailable "lazorkit_logs" 7 5).1 rfl,
   (storage_load_save_fallback exStoreWriteFails "lazorkit_logs" 7 5).2.2.2.2.1 rfl,
   (storage_load_save_fallback exStoreWriteFails "lazorkit_logs" 9 5).2.2.2.2.2 rfl rfl⟩

/-- The per-action re-entrancy guard: the ref flag (`isSigningRef` and
friends), the mirrored busy state (`isSigning` and friends), and the
pending `setTimeout` that will clear both (`releaseAt = some r` means the
clearing callback is scheduled to fire at time `r`). -/
structure OpGuard where
  locked : Bool
  busy : Bool
  releaseAt : Option Nat
deriving DecidableEq

/-- The event loop firing a due timer callback before the next handler
runs at time `now`: a scheduled release that has come due clears the ref
and the busy state. -/
def tick (now : Nat) (g : OpGuard) : OpGuard :=
  match g.releaseAt with
  | some r => if r ≤ now then { locked := false, busy := false, releaseAt := none } else g
  | none => g

/-- The handlers' check-and-set prologue (e.g. lazorkit.ts lines 627-634):
at time `now`, after due timers have fired, bail out when the ref is still
set; otherwise set the ref and the busy state synchronously. -/
def tryAcquire (now : Nat) (g : OpGuard) : Bool × OpGuard :=
  let g' := tick now g
  if g'.locked then (false, g')
  else (true, { locked := true, busy := true, releaseAt := none })

/-- The handlers' finally-block `setTimeout(..., cooldownMs)` (e.g.
lazorkit.ts lines 651-654): schedule clearing of the ref and the busy
state `cooldownMs` after `now`. -/
def release (now cooldownMs : Nat) (g : OpGuard) : OpGuard :=
  { g with releaseAt := some (now + cooldownMs) }

theorem tryAcquire_true_state {now : Nat} {g : OpGuard}
    (h : (tryAcquire now g).1 = true) :
    (tryAcquire now g).2 = { locked := true, busy := true, releaseAt := none } := by
  by_cases hl : (tick now g).locked = true
  · simp [tryAcquire, hl] at h
  · simp [tryAcquire, hl]

/-- C9: for a guard of any operation kind, a second `tryAcquire` after a
successful one returns `false` while no release has been scheduled, and
still `false` when a release has been scheduled whose cooldown has not yet
elapsed; and once `release cooldownMs` has been invoked and the cooldown
has elapsed, the next `tryAcquire` returns `true` again. -/
theorem guard_reentrancy (g : OpGuard) (t1 t2 t3 tr c : Nat)
    (h1 : (tryAcquire t1 g).1 = true) :
    (tryAcquire t2 (tryAcquire t1 g).2).1 = false
    ∧ (t2 < tr + c →
        (tryAcquire t2 (release tr c (tryAcquire t1 g).2)).1 = false)
    ∧ (tr + c ≤ t3 →
        (tryAcquire t3 (release tr c (tryAcquire t1 g).2)).1 = true) := by
  rw [tryAcquire_true_state h1]
  refine ⟨rfl, ?_, ?_⟩
  · intro hlt
    have hnot : ¬ tr + c ≤ t2 := by omega
    simp [tryAcquire, release, tick, hnot]
  · intro hle
    simp [tryAcquire, release, tick, hle]

/-- C9 witness: the spec scenario — acquire at t=0 succeeds, a second
attempt at t=499 fails, after `release 0 500` an attempt at t=499 still
fails, and an attempt at t=501 succeeds. -/
theorem guard_reentrancy_witness :
    (tryAcquire 499 (tryAcquire 0 { locked := false, busy := false, releaseAt := none }).2).1
        = false
    ∧ (tryAcquire 499 (release 0 500
        (tryAcquire 0 { locked := false, busy := false, releaseAt := none }).2)).1 = false
    ∧ (tryAcquire 501 (release 0 500
        (tryAcquire 0 { locked := false, busy := false, releaseAt := none }).2)).1 = true := by
  have h := guard_reentrancy { locked := false, busy := false, releaseAt := none }
    0 499 501 0 500 (by decide)
  exact ⟨h.1, h.2.1 (by decide), h.2.2 (by decide)⟩

/-- The state part of one `addLog` call. -/
def addLog1 (type : LogKind) (message : String) (details : Option String)
    (idv t : Nat) (s : LedgerState) : LedgerState :=
  (addLog type message details idv t s).1

/-- The state part of `clearPendingLogs`. -/
def clearPendingLogs1 (s : LedgerState) : LedgerState :=
  (clearPendingLogs s).1

/-- The WalletDemo component state touched by the handlers: the Log
Ledger, the Transaction History Ledger, `lastSignature`, `balance`, and
the four per-action re-entrancy guards (refs plus mirrored busy state).
There is no guard for connect: the component declares refs only for
signing, sending, subscribing and airdrop (lazorkit.ts lines 274-277). -/
structure AppState where
  ledger : LedgerState
  history : TxState
  lastSignature : Option String
  balance : Nat
  signingGuard : OpGuard
  sendingGuard : OpGuard
  subscribingGuard : OpGuard
  airdropGuard : OpGuard
deriving DecidableEq

/-- The synchronous lock: `ref.current = true` plus the mirrored busy
`useState` setter. -/
def acquireNow (g : OpGuard) : OpGuard :=
  { g with locked := true, busy := true }

/-- The synchronous prefix of `handleConnect` on the component state. -/
def handleConnectBegin (idv t : Nat) (st : AppState) : AppState :=
  { st with ledger := handleConnectBeginLedger idv t st.ledger }

/-- `handleConnect` (lazorkit.ts lines 469-550): clear the log, append a
pending entry, await `connect()` (outcome `res`; `.ok` carries
`result?.smartWallet`, with the empty string for a missing wallet field),
log success (plus an info entry when a wallet address is present) or log
the caught error, and always clear pending entries in the finally block.
The entire body is inside try/catch, so the handler itself never
rejects. -/
def handleConnectRun (res : Except String String) (i1 t1 i2 t2 i3 t3 : Nat)
    (st : AppState) : Except String AppState :=
  let st1 := handleConnectBegin i1 t1 st
  let st2 :=
    match res with
    | .ok smartWallet =>
      let lgA := addLog1 LogKind.success "Connected successfully!" none i2 t2 st1.ledger
      let stA := { st1 with ledger := lgA }
      let walletMsg := "Wallet: " ++ smartWallet.take 8 ++ "..."
          ++ smartWallet.drop (smartWallet.length - 4)
      if smartWallet ≠ "" then
        { stA with ledger := addLog1 LogKind.info walletMsg none i3 t3 stA.ledger }
      else stA
    | .error e =>
      { st1 with ledger := addLog1 LogKind.error "Connection failed" (some e) i2 t2 st1.ledger }
  Except.ok { st2 with ledger := clearPendingLogs1 st2.ledger }

/-- `handleDisconnect` (lazorkit.ts lines 552-557): `await disconnect()`
with no try/catch, then an info log and resets. A rejection of
`disconnect()` escapes the handler. -/
def handleDisconnectRun (res : Except String Unit) (i t : Nat)
    (st : AppState) : Except String AppState :=
  match res with
  | .error e => Except.error e
  | .ok _ =>
    let lg := addLog1 LogKind.info "Disconnected" none i t st.ledger
    Except.ok { st with ledger := lg, lastSignature := none, balance := 0 }

/-- `handleSignMessage` (lazorkit.ts lines 625-656): bail out when not
connected, when the SDK exposes no `signMessage`, or when the signing ref
is set; otherwise lock, log pending, await `signMessage` (outcome `res`),
log success (plus an info entry when a signature string is present) or
log the caught error, then clear pending logs and schedule the 500 ms
unlock. -/
def handleSignMessageRun (isConnected hasSignMessage : Bool)
    (res : Except String String) (i1 t1 i2 t2 i3 t3 tEnd : Nat)
    (st : AppState) : Except String AppState :=
  if !isConnected || !hasSignMessage || st.signingGuard.locked then Except.ok st
  else
    let lg1 := addLog1 LogKind.pending "Requesting signature..." none i1 t1 st.ledger
    let st1 := { st with signingGuard := acquireNow st.signingGuard, ledger := lg1 }
    let st2 :=
      match res with
      | .ok sig =>
        let stA := { st1 with ledger := addLog1 LogKind.success "Message signed!" none i2 t2 st1.ledger }
        if sig ≠ "" then
          { stA with ledger := addLog1 LogKind.info ("Sig: " ++ sig.take 16 ++ "...") none i3 t3 stA.ledger }
        else stA
      | .error e =>
        { st1 with ledger := addLog1 LogKind.error "Signing failed" (some e) i2 t2 st1.ledger }
    let lgF := clearPendingLogs1 st2.ledger
    Except.ok { st2 with ledger := lgF, signingGuard := release tEnd 500 st2.signingGuard }

/-- The catch block of `handleSendTransaction` (lazorkit.ts lines
718-742): log the caught error and record a failed transfer. -/
def sendCatch (e : String) (iE tE tTxE : Nat) (stX : AppState) : AppState :=
  let lgE := addLog1 LogKind.error "Transaction failed" (some e) iE tE stX.ledger
  let stY := { stX with ledger := lgE }
  let hE := addTransaction "" TxKind.transfer TxStatus.failed (some e) tTxE stY.history
  { stY with history := hE }

/-- The catch block of `handleAirdrop` (lazorkit.ts lines 602-614): log a
dedicated message when the error mentions a rate limit (`429` or `limit`
occurs in the message), otherwise log the error with details, and record
a failed airdrop either way. -/
def airdropCatch (e : String) (iE tE tTxE : Nat) (stX : AppState) : AppState :=
  let rateLimited := 1 < (e.splitOn "429").length || 1 < (e.splitOn "limit").length
  let lgE :=
    if rateLimited then
      addLog1 LogKind.error "Rate limited! Use faucet.solana.com instead" none iE tE stX.ledger
    else
      addLog1 LogKind.error "Airdrop failed" (some e) iE tE stX.ledger
  let stY := { stX with ledger := lgE }
  let hE := addTransaction "" TxKind.airdrop TxStatus.failed (some e) tTxE stY.history
  { stY with history := hE }

/-- The catch block of `handleSubscribe` (lazorkit.ts lines 788-791): log
the caught error and record a failed subscription. -/
def subscribeCatch (e : String) (iE tE tTxE : Nat) (stX : AppState) : AppState :=
  let lgE := addLog1 LogKind.error "Subscription failed" (some e) iE tE stX.ledger
  let stY := { stX with ledger := lgE }
  let hE := addTransaction "" TxKind.subscription TxStatus.failed (some e) tTxE stY.history
  { stY with history := hE }

/-- `handleSendTransaction` (lazorkit.ts lines 658-751): bail out when no
wallet, no `signAndSendTransaction`, or the sending ref is set; otherwise
lock, log pending, await the transaction (outcome `sigRes`); on success
record the signature, log success and info, record the transaction and
refresh the balance (outcome `balRes`, whose rejection is caught by the
same catch block); on a caught error log it and record a failed
transaction; finally clear pending logs and schedule the 500 ms unlock. -/
def handleSendTransactionRun (hasWallet hasSignAndSend : Bool)
    (sigRes : Except String String) (balRes : Except String Nat)
    (i1 t1 i2 t2 i3 t3 iE tE tTx tTxE tEnd : Nat)
    (st : AppState) : Except String AppState :=
  if !hasWallet || !hasSignAndSend || st.sendingGuard.locked then Except.ok st
  else
    let lg1 := addLog1 LogKind.pending "Sending gasless transaction..." none i1 t1 st.ledger
    let st1 := { st with sendingGuard := acquireNow st.sendingGuard, ledger := lg1 }
    let catchPath := fun (e : String) (stX : AppState) => sendCatch e iE tE tTxE stX
    let st2 :=
      match sigRes with
      | .ok sig =>
        let stA := { st1 with lastSignature := some sig }
        let stB := { stA with ledger := addLog1 LogKind.success "Transaction confirmed!" none i2 t2 stA.ledger }
        let lgI := addLog1 LogKind.info ("TX: " ++ sig.take 12 ++ "...") (some sig) i3 t3 stB.ledger
        let stC := { stB with ledger := lgI }
        let hS := addTransaction sig TxKind.transfer TxStatus.success (some "Self-transfer 100 lamports") tTx stC.history
        let stD := { stC with history := hS }
        match balRes with
        | .ok b => { stD with balance := b }
        | .error e => catchPath e stD
      | .error e => catchPath e st1
    let lgF := clearPendingLogs1 st2.ledger
    Except.ok { st2 with ledger := lgF, sendingGuard := release tEnd 500 st2.sendingGuard }

/-- `handleAirdrop` (lazorkit.ts lines 559-623): bail out when no wallet
or the airdrop ref is set; otherwise lock, log pending, await
`requestAirdrop` (outcome `airdropRes`), log the info entry with the
signature, await confirmation (outcome `confirmRes`), log success, record
the transaction, refresh the balance (outcome `balRes`) and remember the
signature; any caught error is logged (with a dedicated message when it
mentions a rate limit) and recorded as a failed transaction; finally
clear pending logs and schedule the 500 ms unlock. -/
def handleAirdropRun (hasWallet : Bool)
    (airdropRes : Except String String) (confirmRes : Except String Unit)
    (balRes : Except String Nat)
    (i1 t1 i2 t2 i3 t3 iE tE tTx tTxE tEnd : Nat)
    (st : AppState) : Except String AppState :=
  if !hasWallet || st.airdropGuard.locked then Except.ok st
  else
    let lg1 := addLog1 LogKind.pending "Requesting 1 SOL airdrop from devnet..." none i1 t1 st.ledger
    let st1 := { st with airdropGuard := acquireNow st.airdropGuard, ledger := lg1 }
    let catchPath := fun (e : String) (stX : AppState) => airdropCatch e iE tE tTxE stX
    let st2 :=
      match airdropRes with
      | .error e => catchPath e st1
      | .ok sig =>
        let stA := { st1 with ledger := addLog1 LogKind.info ("Airdrop TX: " ++ sig.take 12 ++ "...") none i2 t2 st1.ledger }
        match confirmRes with
        | .error e => catchPath e stA
        | .ok _ =>
          let stB := { stA with ledger := addLog1 LogKind.success "+1 SOL airdropped!" none i3 t3 stA.ledger }
          let hS := addTransaction sig TxKind.airdrop TxStatus.success (some "1 SOL from devnet faucet") tTx stB.history
          let stC := { stB with history := hS }
          match balRes with
          | .error e => catchPath e stC
          | .ok b => { stC with balance := b, lastSignature := some sig }
    let lgF := clearPendingLogs1 st2.ledger
    Except.ok { st2 with ledger := lgF, airdropGuard := release tEnd 500 st2.airdropGuard }

/-- A subscription plan (lazorkit.ts lines 131-135). `lamports` is the
value of `Math.floor(price * LAMPORTS_PER_SOL)` for the plan's price. -/
structure Plan where
  id : String
  name : String
  priceDisplay : String
  lamports : Nat
deriving DecidableEq

/-- The `PLANS` constant. -/
def PLANS : List Plan :=
  [{ id := "starter", name := "Starter", priceDisplay := "$0.001", lamports := 1000000 },
   { id := "pro", name := "Pro", priceDisplay := "$0.005", lamports := 5000000 },
   { id := "enterprise", name := "Enterprise", priceDisplay := "$0.01", lamports := 10000000 }]

/-- `handleSubscribe` (lazorkit.ts lines 753-801): bail out when no
wallet, no `signAndSendTransaction`, or the subscribing ref is set; bail
out when the plan id is unknown; otherwise lock, log pending, await the
transaction (outcome `sigRes`); on success remember the signature, log
success, record the transaction and refresh the balance (outcome
`balRes`, rejection caught by the same catch); on a caught error log it
and record a failed transaction; finally clear pending logs and schedule
the 500 ms unlock. -/
def handleSubscribeRun (hasWallet hasSignAndSend : Bool) (planId : String)
    (sigRes : Except String String) (balRes : Except String Nat)
    (i1 t1 i2 t2 iE tE tTx tTxE tEnd : Nat)
    (st : AppState) : Except String AppState :=
  if !hasWallet || !hasSignAndSend || st.subscribingGuard.locked then Except.ok st
  else
    match PLANS.find? (fun p => p.id == planId) with
    | none => Except.ok st
    | some plan =>
      let lg1 := addLog1 LogKind.pending ("Subscribing to " ++ plan.name ++ "...") none i1 t1 st.ledger
      let st1 := { st with subscribingGuard := acquireNow st.subscribingGuard, ledger := lg1 }
      let catchPath := fun (e : String) (stX : AppState) => subscribeCatch e iE tE tTxE stX
      let st2 :=
        match sigRes with
        | .ok sig =>
          let stA := { st1 with lastSignature := some sig }
          let stB := { stA with ledger := addLog1 LogKind.success ("Subscribed to " ++ plan.name ++ "!") none i2 t2 stA.ledger }
          let hS := addTransaction sig TxKind.subscription TxStatus.success (some (plan.name ++ " - " ++ plan.priceDisplay)) tTx stB.history
          let stC := { stB with history := hS }
          match balRes with
          | .ok b => { stC with balance := b }
          | .error e => catchPath e stC
        | .error e => catchPath e st1
      let lgF := clearPendingLogs1 st2.ledger
      Except.ok { st2 with ledger := lgF, subscribingGuard := release tEnd 500 st2.subscribingGuard }

/-- An unlocked guard (ref clear, not busy, no timer pending). -/
def unlockedGuard : OpGuard :=
  { locked := false, busy := false, releaseAt := none }

/-- A locked guard (ref set, busy, no timer pending): an action of that
kind is in flight. -/
def lockedGuard : OpGuard :=
  { locked := true, busy := true, releaseAt := none }

/-- A fresh component state. -/
def stBase : AppState :=
  { ledger := { logs := [], stored := none },
    history := { transactions := [], stored := none },
    lastSignature := none, balance := 0,
    signingGuard := unlockedGuard, sendingGuard := unlockedGuard,
    subscribingGuard := unlockedGuard, airdropGuard := unlockedGuard }

theorem mem_take_cons {α : Type} (a : α) (l : List α) {n : Nat} (h : 0 < n) :
    a ∈ (a :: l).take n := by
  cases n with
  | zero => exact absurd h (by omega)
  | succ m => rw [List.take_succ_cons]; exact List.mem_cons_self _ _

theorem mem_addLog1_self (type : LogKind) (message : String)
    (details : Option String) (idv t : Nat) (s : LedgerState) :
    mkLogEntry idv t type message details ∈ (addLog1 type message details idv t s).logs := by
  show mkLogEntry idv t type message details
      ∈ (mkLogEntry idv t type message details :: addLogBase type s.logs).take 30
  exact mem_take_cons _ _ (by omega)

theorem mem_clearPendingLogs1 {s : LedgerState} {l : LogEntry}
    (hl : l ∈ s.logs) (hp : isPending l = false) :
    l ∈ (clearPendingLogs1 s).logs := by
  by_cases h : (s.logs.filter isPending).length = 0
  · simpa [clearPendingLogs1, clearPendingLogs, h] using hl
  · simp only [clearPendingLogs1, clearPendingLogs, h, if_neg]
    exact List.mem_filter.mpr ⟨hl, by simp [hp]⟩

/-- A component state captured while a connect attempt is in flight: the
first connect's pending entry is the whole in-memory log. -/
def stMidConnect : AppState :=
  { stBase with ledger :=
      { logs := [mkLogEntry 0 0 LogKind.pending "Opening passkey authentication..." none],
        stored := none } }

/-- C5 counterexample: `handleConnect` has no re-entrancy guard (the
component declares refs only for signing, sending, subscribing and
airdrop), so a connect triggered while a connect is already in flight is
not silently dropped: its synchronous prefix runs again, replacing the
log with a fresh pending entry — logging and state change do happen. -/
theorem connect_unguarded_counterexample :
    (handleConnectBegin 1 1 stMidConnect).ledger.logs
        = [mkLogEntry 1 1 LogKind.pending "Opening passkey authentication..." none]
    ∧ (handleConnectBegin 1 1 stMidConnect).ledger.logs ≠ stMidConnect.ledger.logs :=
  ⟨rfl, by decide⟩

/-- C5 amended: sign, send, airdrop and subscribe each have their own
per-action re-entrancy guard, and when acquisition fails (that action is
already in flight) the duplicate invocation performs no logging and no
state change; connect has no guard: a connect triggered while a connect
is in flight re-runs the handler, which clears the log and appends a
fresh pending entry. -/
theorem per_action_guards_amended (b1 b2 : Bool)
    (resS sigR airR subR : Except String String)
    (balR abalR sbalR : Except String Nat) (confR : Except String Unit)
    (planId : String) (i1 t1 i2 t2 i3 t3 iE tE tTx tTxE tEnd i t : Nat)
    (st : AppState)
    (hsg : st.signingGuard.locked = true)
    (hdg : st.sendingGuard.locked = true)
    (hag : st.airdropGuard.locked = true)
    (hbg : st.subscribingGuard.locked = true) :
    handleSignMessageRun b1 b2 resS i1 t1 i2 t2 i3 t3 tEnd st = Except.ok st
    ∧ handleSendTransactionRun b1 b2 sigR balR i1 t1 i2 t2 i3 t3 iE tE tTx tTxE tEnd st
        = Except.ok st
    ∧ handleAirdropRun b1 airR confR abalR i1 t1 i2 t2 i3 t3 iE tE tTx tTxE tEnd st
        = Except.ok st
    ∧ handleSubscribeRun b1 b2 planId subR sbalR i1 t1 i2 t2 iE tE tTx tTxE tEnd st
        = Except.ok st
    ∧ (handleConnectBegin i t st).ledger.logs
        = [mkLogEntry i t LogKind.pending "Opening passkey authentication..." none] := by
  refine ⟨?_, ?_, ?_, ?_, rfl⟩
  · simp [handleSignMessageRun, hsg]
  · simp [handleSendTransactionRun, hdg]
  · simp [handleAirdropRun, hag]
  · simp [handleSubscribeRun, hbg]

/-- A component state in which every guarded action is in flight. -/
def stAllLocked : AppState :=
  { stBase with signingGuard := lockedGuard, sendingGuard := lockedGuard, subscribingGuard := lockedGuard, airdropGuard := lockedGuard }

/-- C5 witness: with all four guards locked, each guarded handler returns
the state unchanged, while a connect still replaces the log. -/
theorem per_action_guards_amended_witness :
    handleSignMessageRun true true (Except.ok "") 0 0 0 0 0 0 0 stAllLocked
        = Except.ok stAllLocked
    ∧ handleSendTransactionRun true true (Except.ok "") (Except.ok 0)
        0 0 0 0 0 0 0 0 0 0 0 stAllLocked = Except.ok stAllLocked
    ∧ handleAirdropRun true (Except.ok "") (Except.ok ()) (Except.ok 0)
        0 0 0 0 0 0 0 0 0 0 0 stAllLocked = Except.ok stAllLocked
    ∧ handleSubscribeRun true true "pro" (Except.ok "") (Except.ok 0)
        0 0 0 0 0 0 0 0 0 stAllLocked = Except.ok stAllLocked
    ∧ (handleConnectBegin 0 0 stAllLocked).ledger.logs
        = [mkLogEntry 0 0 LogKind.pending "Opening passkey authentication..." none] :=
  per_action_guards_amended true true (Except.ok "") (Except.ok "") (Except.ok "")
    (Except.ok "") (Except.ok 0) (Except.ok 0) (Except.ok 0) (Except.ok ()) "pro"
    0 0 0 0 0 0 0 0 0 0 0 0 0 stAllLocked rfl rfl rfl rfl

/-- C6 counterexample: the disconnect handler awaits `disconnect()` with
no try/catch, so a rejection of the awaited SDK call escapes the handler
as an unhandled rejection instead of being converted to a log entry. -/
theorem disconnect_rejection_escapes :
    handleDisconnectRun (Except.error "boom") 0 0 stBase = Except.error "boom" := rfl

theorem airdropCatch_error_mem (e : String) (iE tE tTxE : Nat) (stX : AppState) :
    ∃ l ∈ (airdropCatch e iE tE tTxE stX).ledger.logs,
      l.kind = LogKind.error ∧ isPending l = false := by
  by_cases hr : (1 < (e.splitOn "429").length || 1 < (e.splitOn "limit").length) = true
  · refine ⟨mkLogEntry iE tE LogKind.error "Rate limited! Use faucet.solana.com instead" none,
      ?_, rfl, rfl⟩
    simp [airdropCatch, hr]
    exact mem_addLog1_self _ _ _ _ _ _
  · rw [Bool.not_eq_true] at hr
    refine ⟨mkLogEntry iE tE LogKind.error "Airdrop failed" (some e), ?_, rfl, rfl⟩
    simp [airdropCatch, hr]
    exact mem_addLog1_self _ _ _ _ _ _

/-- C6 amended: the connect, sign, send, airdrop and subscribe handlers
catch every error thrown by the external SDK/RPC calls they await and
convert it to an error-kind LogEntry (the handler always resolves); the
disconnect handler, however, has no try/catch: a rejection of
`disconnect()` escapes it. -/
theorem handlers_catch_external_errors
    (resC resS sigR airR subR : Except String String)
    (balR abalR sbalR : Except String Nat) (confR : Except String Unit)
    (b1 b2 : Bool) (e : String) (planId : String)
    (i1 t1 i2 t2 i3 t3 iE tE tTx tTxE tEnd i t : Nat) (st : AppState) :
    (∃ st2, handleConnectRun resC i1 t1 i2 t2 i3 t3 st = Except.ok st2)
    ∧ (∃ st2, handleSignMessageRun b1 b2 resS i1 t1 i2 t2 i3 t3 tEnd st = Except.ok st2)
    ∧ (∃ st2, handleSendTransactionRun b1 b2 sigR balR i1 t1 i2 t2 i3 t3 iE tE tTx tTxE tEnd st
        = Except.ok st2)
    ∧ (∃ st2, handleAirdropRun b1 airR confR abalR i1 t1 i2 t2 i3 t3 iE tE tTx tTxE tEnd st
        = Except.ok st2)
    ∧ (∃ st2, handleSubscribeRun b1 b2 planId subR sbalR i1 t1 i2 t2 iE tE tTx tTxE tEnd st
        = Except.ok st2)
    ∧ (∃ st2, handleConnectRun (Except.error e) i1 t1 i2 t2 i3 t3 st = Except.ok st2
        ∧ mkLogEntry i2 t2 LogKind.error "Connection failed" (some e) ∈ st2.ledger.logs)
    ∧ (∃ st2, handleSignMessageRun true true (Except.error e) i1 t1 i2 t2 i3 t3 tEnd
          { st with signingGuard := unlockedGuard } = Except.ok st2
        ∧ mkLogEntry i2 t2 LogKind.error "Signing failed" (some e) ∈ st2.ledger.logs)
    ∧ (∃ st2, handleSendTransactionRun true true (Except.error e) balR
          i1 t1 i2 t2 i3 t3 iE tE tTx tTxE tEnd
          { st with sendingGuard := unlockedGuard } = Except.ok st2
        ∧ mkLogEntry iE tE LogKind.error "Transaction failed" (some e) ∈ st2.ledger.logs)
    ∧ (∃ st2, handleAirdropRun true (Except.error e) confR abalR
          i1 t1 i2 t2 i3 t3 iE tE tTx tTxE tEnd
          { st with airdropGuard := unlockedGuard } = Except.ok st2
        ∧ ∃ l ∈ st2.ledger.logs, l.kind = LogKind.error)
    ∧ (∃ st2, handleSubscribeRun true true "pro" (Except.error e) sbalR
          i1 t1 i2 t2 iE tE tTx tTxE tEnd
          { st with subscribingGuard := unlockedGuard } = Except.ok st2
        ∧ mkLogEntry iE tE LogKind.error "Subscription failed" (some e) ∈ st2.ledger.logs)
    ∧ handleDisconnectRun (Except.error e) i t st = Except.error e
    ∧ (∃ st2, handleDisconnectRun (Except.ok ()) i t st = Except.ok st2) := by
  refine ⟨⟨_, rfl⟩, ?_, ?_, ?_, ?_, ?_, ?_, ?_, ?_, ?_, rfl, ⟨_, rfl⟩⟩
  · unfold handleSignMessageRun
    split
    · exact ⟨_, rfl⟩
    · exact ⟨_, rfl⟩
  · unfold handleSendTransactionRun
    split
    · exact ⟨_, rfl⟩
    · exact ⟨_, rfl⟩
  · unfold handleAirdropRun
    split
    · exact ⟨_, rfl⟩
    · exact ⟨_, rfl⟩
  · unfold handleSubscribeRun
    split
    · exact ⟨_, rfl⟩
    · split
      · exact ⟨_, rfl⟩
      · exact ⟨_, rfl⟩
  · refine ⟨_, rfl, ?_⟩
    exact mem_clearPendingLogs1 (mem_addLog1_self _ _ _ _ _ _) rfl
  · refine ⟨_, rfl, ?_⟩
    exact mem_clearPendingLogs1 (mem_addLog1_self _ _ _ _ _ _) rfl
  · refine ⟨_, rfl, ?_⟩
    exact mem_clearPendingLogs1 (mem_addLog1_self _ _ _ _ _ _) rfl
  · refine ⟨_, rfl, ?_⟩
    obtain ⟨l, hl, hk, hp⟩ := airdropCatch_error_mem e iE tE tTxE _
    exact ⟨l, mem_clearPendingLogs1 hl hp, hk⟩
  · refine ⟨_, rfl, ?_⟩
    exact mem_clearPendingLogs1 (mem_addLog1_self _ _ _ _ _ _) rfl

end LazorKit
